import Mathlib

/-!
Verification of the benchmark-test repository's core metric framework.

The Go sources are shallowly embedded:
* durations and peer counts are natural numbers (nanoseconds / counts);
* the percentile calculator and health evaluator of
  `internal/platform/metric` (the package is not among the sources, only
  its callers) are modelled from the specification;
* each collector's per-tick `measure` body is embedded as a pure function
  from the probe's outcome to the state update it performs;
* the concurrency of `Service.Start` is embedded as a predicate on event
  traces, and its Evaluating loop as a function over the per-collector
  results.
-/

namespace BenchmarkTest

/-! ## Percentile calculator (internal/platform/metric) -/

/-- Modelled from the spec: the index used by `CalculatePercentiles` of
`internal/platform/metric` (the package is not among the sources).
For percentile `p` over `n` values: `ceil(p/100 × n) − 1`, clamped to
`[0, n−1]`; natural subtraction performs the lower clamp. -/
def percentileIndex (n p : Nat) : Nat :=
  min (n - 1) ((p * n + 99) / 100 - 1)

/-- Modelled from the spec: `CalculatePercentiles` of
`internal/platform/metric` (not among the sources), restricted to one
requested percentile.  Sorts a copy of `values` ascending and selects the
nearest-rank element; an empty input yields the zero value. -/
def CalculatePercentiles (values : List Nat) (p : Nat) : Nat :=
  (values.insertionSort (· ≤ ·)).getD (percentileIndex values.length p) 0

/-- Modelled from the spec: `FormatPercentiles` of
`internal/platform/metric` (not among the sources) renders the
min/p10/p50/p90/max summary string used by `AggregateResults`. -/
def FormatPercentiles (mn p10 p50 p90 mx : Nat) : String :=
  "min=" ++ toString mn ++ ", p10=" ++ toString p10 ++ ", p50=" ++ toString p50 ++
    ", p90=" ++ toString p90 ++ ", max=" ++ toString mx

/-! ## Health evaluator (internal/platform/metric) -/

inductive SeverityLevel
  | Low
  | Medium
  | High
deriving DecidableEq, Repr

inductive HealthStatus
  | Healthy
  | Unhealthy
deriving DecidableEq, Repr

inductive Operator
  | Equal
  | LessThan
  | LessThanOrEqual
  | GreaterThan
  | GreaterThanOrEqual
deriving DecidableEq, Repr

/-- `metric.HealthCondition`, with `Nat`-valued thresholds. -/
structure HealthCondition where
  Name : String
  Threshold : Nat
  Op : Operator
  Severity : SeverityLevel
deriving DecidableEq, Repr

def evalOperator (op : Operator) (value threshold : Nat) : Bool :=
  match op with
  | .Equal => value == threshold
  | .LessThan => decide (value < threshold)
  | .LessThanOrEqual => decide (value ≤ threshold)
  | .GreaterThan => decide (threshold < value)
  | .GreaterThanOrEqual => decide (threshold ≤ value)

/-- Modelled from the spec: the health evaluator of
`internal/platform/metric` (not among the sources).  Conditions are
scanned in declared order and the first condition that targets the
measurement and whose operator matches its value determines the
severity; no match means no severity. -/
def matchedSeverity (conds : List HealthCondition) (name : String) (value : Nat) :
    Option SeverityLevel :=
  (conds.find? (fun c => c.Name == name && evalOperator c.Op value c.Threshold)).map
    (fun c => c.Severity)

/-- Modelled from the spec: the overall verdict of `Evaluate` — Unhealthy
iff some measurement's matched severity is High; `values` maps a
measurement name to its fetched value, `none` when absent. -/
def EvaluateStatus (conds : List HealthCondition) (values : String → Option Nat) :
    HealthStatus :=
  if conds.any (fun c =>
      match values c.Name with
      | some v => matchedSeverity conds c.Name v == some SeverityLevel.High
      | none => false)
  then .Unhealthy else .Healthy

/-- The tiered threshold conditions of the worked spec example
(declared most-severe first, as `LoadEnabledMetrics` does for Peers). -/
def tieredConditions : List HealthCondition :=
  [⟨"X", 90, .GreaterThanOrEqual, .High⟩, ⟨"X", 70, .GreaterThanOrEqual, .Medium⟩]

/-! ## LatencyMetric (src/unnamed/part_002 and src/metrics/execution/latency.go) -/

/-- One DataPoint written by `LatencyMetric.writeMetric`: the five
percentile measurements. -/
structure PercentilePoint where
  dMin : Nat
  dP10 : Nat
  dP50 : Nat
  dP90 : Nat
  dMax : Nat
deriving DecidableEq, Repr

/-- `LatencyMetric.writeMetric`: `CalculatePercentiles(l.durations, 0, 10,
50, 90, 100)` over every duration collected so far. -/
def latencyPercentilePoint (durations : List Nat) : PercentilePoint :=
  { dMin := CalculatePercentiles durations 0
    dP10 := CalculatePercentiles durations 10
    dP50 := CalculatePercentiles durations 50
    dP90 := CalculatePercentiles durations 90
    dMax := CalculatePercentiles durations 100 }

/-- The mutable fields of `LatencyMetric` touched by `measure`:
`l.durations` and the store `l.DataPoints`. -/
structure LatencyState where
  durations : List Nat
  dataPoints : List PercentilePoint
deriving DecidableEq, Repr

/-- `NewLatencyMetric` starts with empty durations and an empty store. -/
def latencyInit : LatencyState := ⟨[], []⟩

/-- One tick of `LatencyMetric.Measure`: `measure()` performs one dial;
on failure (`probe = none`) it only logs and returns — no DataPoint is
appended; on success it appends the duration and writes one DataPoint
holding the percentiles of all durations so far. -/
def latencyMeasureTick (s : LatencyState) (probe : Option Nat) : LatencyState :=
  match probe with
  | none => s
  | some d =>
    let ds := s.durations ++ [d]
    { durations := ds, dataPoints := s.dataPoints ++ [latencyPercentilePoint ds] }

/-- The state after a run whose successive tick probes are `probes`. -/
def latencyMeasureRun (probes : List (Option Nat)) : LatencyState :=
  probes.foldl latencyMeasureTick latencyInit

/-- `LatencyMetric.AggregateResults` in `src/metrics/execution/latency.go`
reads `l.DataPoints[len(l.DataPoints)-1]` with no emptiness guard;
`none` models the index-out-of-range panic on an empty store. -/
def execLatencyAggregateResults (dataPoints : List PercentilePoint) : Option String :=
  match dataPoints.getLast? with
  | none => none
  | some t => some (FormatPercentiles t.dMin t.dP10 t.dP50 t.dP90 t.dMax)

/-- The consensus `LatencyMetric.AggregateResults` (src/unnamed/part_002)
guards `len(l.DataPoints) > 0` and otherwise formats the zero values. -/
def consLatencyAggregateResults (dataPoints : List PercentilePoint) : String :=
  match dataPoints.getLast? with
  | none => FormatPercentiles 0 0 0 0 0
  | some t => FormatPercentiles t.dMin t.dP10 t.dP50 t.dP90 t.dMax

/-! ## Execution PeerMetric (src/unnamed/part_003) -/

/-- The network-dependent outcomes of one `PeerMetric.measure` tick. -/
inductive PeerProbeOutcome
  | connFailure
  | badStatus
  | decodeFailure
  | emptyResult
  | parseFailure
  | ok (count : Nat)
deriving DecidableEq, Repr

/-- `errors.Join(measuringErr, err).Error()` for the empty-result error
recorded in `p.measuringErrors[PeerCountMeasurement]`. -/
def measuringErrMessage : String :=
  "UNABLE_TO_MEASURE\npeer count RPC response was empty. Most likely net_peerCount RPC method is not supported"

/-- The mutable fields of the execution `PeerMetric`: the store (one
`Count` value per DataPoint) and `measuringErrors`, which only ever
holds the single key `PeerCountMeasurement`. -/
structure PeerMetricState where
  dataPoints : List Nat
  measuringError : Option String
deriving DecidableEq, Repr

/-- `NewPeerMetric`: empty store, empty `measuringErrors` map. -/
def peerInit : PeerMetricState := ⟨[], none⟩

/-- One tick of the execution `PeerMetric.Measure`: every
network-dependent outcome writes exactly one DataPoint — the parsed
count on success, `0` otherwise — and an empty `net_peerCount` result
additionally records the measuring error. -/
def peerMeasureTick (s : PeerMetricState) (o : PeerProbeOutcome) : PeerMetricState :=
  match o with
  | .ok n => { s with dataPoints := s.dataPoints ++ [n] }
  | .emptyResult =>
    { dataPoints := s.dataPoints ++ [0], measuringError := some measuringErrMessage }
  | _ => { s with dataPoints := s.dataPoints ++ [0] }

/-- The state after a run whose successive tick outcomes are `probes`. -/
def peerMeasureRun (probes : List PeerProbeOutcome) : PeerMetricState :=
  probes.foldl peerMeasureTick peerInit

/-- The execution `PeerMetric.AggregateResults`: returns the recorded
measuring error's message when one exists, otherwise the formatted
percentiles of the collected counts; it mutates nothing, so the state is
returned unchanged. -/
def peerAggregateResults (s : PeerMetricState) : String × PeerMetricState :=
  match s.measuringError with
  | some e => (e, s)
  | none =>
    (FormatPercentiles
      (CalculatePercentiles s.dataPoints 0)
      (CalculatePercentiles s.dataPoints 10)
      (CalculatePercentiles s.dataPoints 50)
      (CalculatePercentiles s.dataPoints 90)
      (CalculatePercentiles s.dataPoints 100), s)

/-- The consensus `PeerMetric.AggregateResults`
(src/metrics/consensus/peers.go): collects the PeerCount value of every
DataPoint and formats the percentiles; it mutates nothing, so the store
is returned unchanged. -/
def consPeerAggregateResults (dataPoints : List Nat) : String × List Nat :=
  (FormatPercentiles
    (CalculatePercentiles dataPoints 0)
    (CalculatePercentiles dataPoints 10)
    (CalculatePercentiles dataPoints 50)
    (CalculatePercentiles dataPoints 90)
    (CalculatePercentiles dataPoints 100), dataPoints)

/-! ## ClientMetric (src/unnamed/part_001) -/

/-- One tick of `ClientMetric.Measure` runs `measureNodeHealth`,
`measureNodeVersion`, `measureSyncStatus` and `measureLatency` — four
probe attempts — and every branch of each appends exactly one
single-measurement DataPoint, here a (measurement, value) pair.
`versionVal = none` collapses the three error branches that all write an
empty version; `latencyMs = none` is the failed health request. -/
def clientMeasureTick (points : List (String × String))
    (healthOk : Bool) (versionVal : Option String) (syncOk : Bool)
    (latencyMs : Option Nat) : List (String × String) :=
  points
    ++ [("NodeHealth", if healthOk then "Healthy" else "Unhealthy")]
    ++ [("Version", versionVal.getD "")]
    ++ [("SyncStatus", if syncOk then "Synced" else "Not Synced")]
    ++ [("Latency", match latencyMs with
        | some ms => toString ms ++ "ms"
        | none => "Error")]

/-! ## Probe timeouts of the constructed collectors -/

def nsPerSecond : Nat := 1000000000

/-- `ClientMetric`'s probes (`measureNodeHealth` etc.) call `http.Get`
on the default client: no timeout is applied at all. -/
def clientProbeTimeoutNs : Option Nat := none

/-- `NewLatencyMetric`: `timeout = time.Duration(float64(interval) * 0.75)`
(exact for the constructed 3 s interval). -/
def latencyProbeTimeoutNs (intervalNs : Nat) : Nat := 3 * intervalNs / 4

/-- `LoadEnabledMetrics` constructs both LatencyMetrics with `time.Second*3`. -/
def latencyMetricIntervalNs : Nat := 3 * nsPerSecond

/-- `PeerMetric.measure`: `context.WithTimeout(ctx, 5*time.Second)`. -/
def peerProbeTimeoutNs : Nat := 5 * nsPerSecond

/-- `LoadEnabledMetrics` constructs both PeerMetrics with `time.Second*10`. -/
def peerMetricIntervalNs : Nat := 10 * nsPerSecond

/-! ## Service.Start (src/unnamed/part_004) -/

/-- The observable events of one `Service.Start` execution: the run
context's cancellation, the return of collector `i`'s `Measure`
goroutine, and the orchestrator's read of collector `i`'s store
(`EvaluateMetric` / `AggregateResults`). -/
inductive BenchEvent
  | cancel
  | measureReturn (i : Nat)
  | evaluate (i : Nat)
deriving DecidableEq, BEq, Repr

def firstIdx (tr : List BenchEvent) (e : BenchEvent) : Option Nat :=
  tr.findIdx? (· == e)

/-- Both events occur and the first occurrence of `e` is before that of `f`. -/
def precedes (tr : List BenchEvent) (e f : BenchEvent) : Bool :=
  match firstIdx tr e, firstIdx tr f with
  | some i, some j => decide (i < j)
  | _, _ => false

/-- The traces `Service.Start` with `n` collectors can produce: the code
launches each `Measure` with `go`, blocks solely on `<-ctx.Done()`, then
reads every store.  So: one cancellation; each store read exactly once,
after cancellation; each `Measure` returns at most once (its goroutine
may still be running when the process exits), and only after it observes
the cancellation.  Nothing in the code orders a collector's return
before the read of its store. -/
def codeStartRun (n : Nat) (tr : List BenchEvent) : Bool :=
  (tr.count .cancel == 1) &&
  ((List.range n).all fun i =>
    tr.count (.evaluate i) == 1 && precedes tr .cancel (.evaluate i)) &&
  ((List.range n).all fun i =>
    (tr.count (.measureReturn i)).ble 1 &&
    (tr.count (.measureReturn i) == 0 || precedes tr .cancel (.measureReturn i)))

/-- The claimed join discipline: every collector's `Measure` has returned
before that collector's store is read. -/
def joinBeforeRead (n : Nat) (tr : List BenchEvent) : Bool :=
  (List.range n).all fun i =>
    tr.count (.measureReturn i) == 1 && precedes tr (.measureReturn i) (.evaluate i)

/-- The Evaluating loop of `Service.Start`: each collector contributes
`some value` (its record's aggregate) or `none` (a panic inside
`EvaluateMetric`/`AggregateResults`, e.g. the empty-store index panic of
the execution `LatencyMetric.AggregateResults`).  Returns the records
actually passed to `AddRecord`, in order, and whether the loop completed
(`Render` runs only on completion); there is no recover, so a panic
aborts the loop. -/
def runEvaluating : List (Option String) → List String × Bool
  | [] => ([], true)
  | none :: _ => ([], false)
  | some r :: rest =>
    let (rs, ok) := runEvaluating rest
    (r :: rs, ok)

/-! ## Helper lemmas -/

theorem percentileIndex_zero (n : Nat) : percentileIndex n 0 = 0 := by
  simp [percentileIndex]

theorem percentileIndex_hundred (n : Nat) : percentileIndex n 100 = n - 1 := by
  have h : (100 * n + 99) / 100 = n := by omega
  simp [percentileIndex, h]

theorem percentileIndex_lt (n p : Nat) (hn : 0 < n) : percentileIndex n p < n := by
  have : n - 1 < n := by omega
  exact lt_of_le_of_lt (min_le_left _ _) this

theorem percentileIndex_mono (n : Nat) {p q : Nat} (h : p ≤ q) :
    percentileIndex n p ≤ percentileIndex n q := by
  unfold percentileIndex
  have h1 : p * n + 99 ≤ q * n + 99 := by
    have := Nat.mul_le_mul_right n h
    omega
  have h2 : (p * n + 99) / 100 ≤ (q * n + 99) / 100 := Nat.div_le_div_right h1
  exact min_le_min (le_refl _) (by omega)

theorem calculatePercentiles_nil (p : Nat) : CalculatePercentiles [] p = 0 := by
  simp [CalculatePercentiles, List.insertionSort]

theorem calculatePercentiles_mem (values : List Nat) (p : Nat) (h : values ≠ []) :
    CalculatePercentiles values p ∈ values := by
  have hlen : (values.insertionSort (· ≤ ·)).length = values.length :=
    List.length_insertionSort _ _
  have hpos : 0 < values.length := List.length_pos.mpr h
  have hidx : percentileIndex values.length p < (values.insertionSort (· ≤ ·)).length := by
    rw [hlen]; exact percentileIndex_lt _ _ hpos
  have := List.getD_eq_getElem (values.insertionSort (· ≤ ·)) 0 hidx
  rw [CalculatePercentiles, this]
  have hmem : (values.insertionSort (· ≤ ·))[percentileIndex values.length p] ∈
      values.insertionSort (· ≤ ·) := List.getElem_mem _
  exact (List.perm_insertionSort (· ≤ ·) values).subset hmem

theorem calculatePercentiles_mono (values : List Nat) {p q : Nat} (hpq : p ≤ q) :
    CalculatePercentiles values p ≤ CalculatePercentiles values q := by
  rcases eq_or_ne values [] with rfl | h
  · simp [calculatePercentiles_nil]
  · have hlen : (values.insertionSort (· ≤ ·)).length = values.length :=
      List.length_insertionSort _ _
    have hpos : 0 < values.length := List.length_pos.mpr h
    have hip : percentileIndex values.length p < (values.insertionSort (· ≤ ·)).length := by
      rw [hlen]; exact percentileIndex_lt _ _ hpos
    have hiq : percentileIndex values.length q < (values.insertionSort (· ≤ ·)).length := by
      rw [hlen]; exact percentileIndex_lt _ _ hpos
    rw [CalculatePercentiles, CalculatePercentiles,
      List.getD_eq_getElem _ 0 hip, List.getD_eq_getElem _ 0 hiq]
    have hsorted : (values.insertionSort (· ≤ ·)).Sorted (· ≤ ·) :=
      List.sorted_insertionSort _ _
    exact hsorted.rel_get_of_le (a := ⟨_, hip⟩) (b := ⟨_, hiq⟩)
      (percentileIndex_mono _ hpq)

theorem calculatePercentiles_zero_min (values : List Nat) (x : Nat) (hx : x ∈ values) :
    CalculatePercentiles values 0 ≤ x := by
  have h : values ≠ [] := by rintro rfl; simp at hx
  have hlen : (values.insertionSort (· ≤ ·)).length = values.length :=
    List.length_insertionSort _ _
  have hpos : 0 < values.length := List.length_pos.mpr h
  have hi0 : percentileIndex values.length 0 < (values.insertionSort (· ≤ ·)).length := by
    rw [hlen]; exact percentileIndex_lt _ _ hpos
  rw [CalculatePercentiles, List.getD_eq_getElem _ 0 hi0]
  have hxs : x ∈ values.insertionSort (· ≤ ·) :=
    (List.perm_insertionSort (· ≤ ·) values).symm.subset hx
  obtain ⟨j, hj, rfl⟩ := List.getElem_of_mem hxs
  have hsorted : (values.insertionSort (· ≤ ·)).Sorted (· ≤ ·) :=
    List.sorted_insertionSort _ _
  exact hsorted.rel_get_of_le (a := ⟨_, hi0⟩) (b := ⟨j, hj⟩)
    (by simp [percentileIndex_zero])

theorem calculatePercentiles_hundred_max (values : List Nat) (x : Nat) (hx : x ∈ values) :
    x ≤ CalculatePercentiles values 100 := by
  have h : values ≠ [] := by rintro rfl; simp at hx
  have hlen : (values.insertionSort (· ≤ ·)).length = values.length :=
    List.length_insertionSort _ _
  have hpos : 0 < values.length := List.length_pos.mpr h
  have hi1 : percentileIndex values.length 100 < (values.insertionSort (· ≤ ·)).length := by
    rw [hlen]; exact percentileIndex_lt _ _ hpos
  rw [CalculatePercentiles, List.getD_eq_getElem _ 0 hi1]
  have hxs : x ∈ values.insertionSort (· ≤ ·) :=
    (List.perm_insertionSort (· ≤ ·) values).symm.subset hx
  obtain ⟨j, hj, rfl⟩ := List.getElem_of_mem hxs
  have hsorted : (values.insertionSort (· ≤ ·)).Sorted (· ≤ ·) :=
    List.sorted_insertionSort _ _
  refine hsorted.rel_get_of_le (a := ⟨j, hj⟩) (b := ⟨_, hi1⟩) ?_
  show j ≤ percentileIndex values.length 100
  rw [percentileIndex_hundred]
  omega

theorem peerMeasureTick_error (s : PeerMetricState) (o : PeerProbeOutcome) :
    (peerMeasureTick s o).measuringError =
      if o = .emptyResult then some measuringErrMessage else s.measuringError := by
  cases o <;> simp [peerMeasureTick]

theorem peerFoldl_error (probes : List PeerProbeOutcome) (s : PeerMetricState)
    (h : PeerProbeOutcome.emptyResult ∈ probes ∨
      s.measuringError = some measuringErrMessage) :
    (probes.foldl peerMeasureTick s).measuringError = some measuringErrMessage := by
  induction probes generalizing s with
  | nil =>
    rcases h with h | h
    · simp at h
    · simpa using h
  | cons o rest ih =>
    rw [List.foldl_cons]
    refine ih _ ?_
    rcases h with h | h
    · rcases List.mem_cons.mp h with rfl | hmem
      · right; simp [peerMeasureTick_error]
      · left; exact hmem
    · right; rw [peerMeasureTick_error]; split <;> simp [h]

theorem latencyTick_durations_some (s : LatencyState) (d : Nat) :
    (latencyMeasureTick s (some d)).durations = s.durations ++ [d] := rfl

theorem latencyFoldl_invariant (probes : List (Option Nat)) (s : LatencyState)
    (hlen : s.dataPoints.length = s.durations.length)
    (hpts : ∀ k (hk : k < s.dataPoints.length),
      s.dataPoints.get ⟨k, hk⟩ = latencyPercentilePoint (s.durations.take (k + 1))) :
    (probes.foldl latencyMeasureTick s).dataPoints.length =
        (probes.foldl latencyMeasureTick s).durations.length ∧
      (probes.foldl latencyMeasureTick s).durations =
        s.durations ++ probes.filterMap id ∧
      ∀ k (hk : k < (probes.foldl latencyMeasureTick s).dataPoints.length),
        (probes.foldl latencyMeasureTick s).dataPoints.get ⟨k, hk⟩ =
          latencyPercentilePoint
            ((probes.foldl latencyMeasureTick s).durations.take (k + 1)) := by
  induction probes generalizing s with
  | nil => exact ⟨hlen, by simp, hpts⟩
  | cons o rest ih =>
    rw [List.foldl_cons]
    cases o with
    | none =>
      have h := ih s hlen hpts
      simpa [latencyMeasureTick] using h
    | some d =>
      have hlen' : (latencyMeasureTick s (some d)).dataPoints.length =
          (latencyMeasureTick s (some d)).durations.length := by
        simp [latencyMeasureTick, hlen]
      have hpts' : ∀ k (hk : k < (latencyMeasureTick s (some d)).dataPoints.length),
          (latencyMeasureTick s (some d)).dataPoints.get ⟨k, hk⟩ =
            latencyPercentilePoint
              ((latencyMeasureTick s (some d)).durations.take (k + 1)) := by
        intro k hk
        simp only [latencyMeasureTick] at hk ⊢
        rcases Nat.lt_or_ge k s.dataPoints.length with hklt | hkge
        · have hget : (s.dataPoints ++ [latencyPercentilePoint (s.durations ++ [d])]).get
              ⟨k, hk⟩ = s.dataPoints.get ⟨k, hklt⟩ := by
            rw [List.get_eq_getElem, List.get_eq_getElem, List.getElem_append_left]
          rw [hget, hpts k hklt]
          have htake : (s.durations ++ [d]).take (k + 1) = s.durations.take (k + 1) := by
            rw [List.take_append_of_le_length (by omega)]
          rw [htake]
        · have hk' : k = s.dataPoints.length := by
            simp only [List.length_append, List.length_singleton] at hk
            omega

          subst hk'
          have hget : (s.dataPoints ++ [latencyPercentilePoint (s.durations ++ [d])]).get
              ⟨s.dataPoints.length, hk⟩ =
              latencyPercentilePoint (s.durations ++ [d]) := by
            rw [List.get_eq_getElem, List.getElem_append_right (le_refl _)]
            simp
          rw [hget]
          have htake : (s.durations ++ [d]).take (s.dataPoints.length + 1) =
              s.durations ++ [d] := by
            apply List.take_of_length_le
            simp [hlen]
          rw [htake]
      have h := ih (latencyMeasureTick s (some d)) hlen' hpts'
      refine ⟨h.1, ?_, h.2.2⟩
      rw [h.2.1, latencyTick_durations_some]
      simp

/-! ## Claims -/

/-- C1: the claim says every `Service.Start` execution joins every
launched `Measure` before any store is read.  False on the code: `Start`
blocks only on `<-ctx.Done()` with no per-collector join, so the trace
`[cancel, evaluate 0]` — the orchestrator reads the sole collector's
store although its `Measure` never returned — is an execution the code
admits, and it violates the join discipline. -/
theorem C1_start_reads_store_without_join :
    codeStartRun 1 [.cancel, .evaluate 0] = true ∧
    joinBeforeRead 1 [.cancel, .evaluate 0] = false := by
  decide

/-- C2 as stated is false: a `LatencyMetric` tick whose dial fails
appends no DataPoint at all (no zero-value failure marker), and a
`ClientMetric` tick performs four probe attempts and appends four
DataPoints, not one. -/
theorem C2_counterexample :
    (latencyMeasureTick latencyInit none).dataPoints.length = 0 ∧
    (clientMeasureTick [] true (some "v1") true (some 5)).length = 4 := by
  constructor
  · rfl
  · rfl

/-- C2 (amended): each tick performs a fixed set of probe attempts with
no retry, but the DataPoint discipline differs per collector: a
`LatencyMetric` tick appends one DataPoint on success and none on
failure, an execution `PeerMetric` tick appends exactly one DataPoint on
every outcome (the zero marker on failure), and a `ClientMetric` tick
appends exactly four DataPoints (one per sub-measurement). -/
theorem C2_per_tick_datapoints_amended :
    (∀ s d, (latencyMeasureTick s (some d)).dataPoints.length =
      s.dataPoints.length + 1) ∧
    (∀ s, (latencyMeasureTick s none).dataPoints.length = s.dataPoints.length) ∧
    (∀ s o, (peerMeasureTick s o).dataPoints.length = s.dataPoints.length + 1) ∧
    (∀ pts h v sy lt, (clientMeasureTick pts h v sy lt).length = pts.length + 4) := by
  refine ⟨?_, ?_, ?_, ?_⟩
  · intro s d; simp [latencyMeasureTick]
  · intro s; rfl
  · intro s o; cases o <;> simp [peerMeasureTick]
  · intro pts h v sy lt; simp [clientMeasureTick]

/-- C3: the claim says the aggregate of a metric with zero valid samples
renders the zero-value formatting rather than failing.  The execution
`LatencyMetric.AggregateResults` instead indexes
`DataPoints[len(DataPoints)-1]` with no emptiness guard, so an empty
store panics (`none`); its consensus sibling guards the length and does
render the zero values, showing the omission is a slip. -/
theorem C3_empty_store_aggregate_panics :
    execLatencyAggregateResults [] = none ∧
    consLatencyAggregateResults [] = FormatPercentiles 0 0 0 0 0 ∧
    (∀ t, execLatencyAggregateResults [t] =
      some (FormatPercentiles t.dMin t.dP10 t.dP50 t.dP90 t.dMax)) := by
  refine ⟨rfl, rfl, ?_⟩
  intro t
  rfl

/-- C4: the claim says one collector's evaluation failure must not
prevent the other collectors' Records.  The Evaluating loop has no
recover, so a panic while aggregating the first collector aborts the
loop: the second collector's record is never added (result `([], false)`),
although without the failure both records are added. -/
theorem C4_failure_suppresses_later_records :
    runEvaluating [none, some "Peers"] = ([], false) ∧
    runEvaluating [some "CPU", some "Peers"] = (["CPU", "Peers"], true) := by
  constructor
  · rfl
  · rfl

/-- C6: the claim says every constructed collector's probe timeout is at
most its tick interval.  The two LatencyMetrics (0.75 × 3 s = 2.25 s)
and the two PeerMetrics (5 s against a 10 s interval) comply, but the
`ClientMetric` probes use `http.Get` on the default client and apply no
timeout at all, so the claim fails there. -/
theorem C6_client_probe_has_no_timeout :
    clientProbeTimeoutNs = none ∧
    latencyProbeTimeoutNs latencyMetricIntervalNs = 2250000000 ∧
    latencyProbeTimeoutNs latencyMetricIntervalNs ≤ latencyMetricIntervalNs ∧
    peerProbeTimeoutNs ≤ peerMetricIntervalNs := by
  refine ⟨rfl, ?_, ?_, ?_⟩
  · norm_num [latencyProbeTimeoutNs, latencyMetricIntervalNs, nsPerSecond]
  · norm_num [latencyProbeTimeoutNs, latencyMetricIntervalNs, nsPerSecond]
  · norm_num [peerProbeTimeoutNs, peerMetricIntervalNs, nsPerSecond]

/-- C5: `CalculatePercentiles` follows the nearest-rank method: the
result is the sorted element at index `ceil(p/100 × n) − 1` clamped to
`[0, n−1]`; on a non-empty input p=0 yields the minimum, p=100 the
maximum, and the result is monotonically non-decreasing in p; an empty
input yields the zero value for every requested percentile. -/
theorem C5_nearest_rank_percentiles (values : List Nat) (hne : values ≠ [])
    {p q : Nat} (hpq : p ≤ q) :
    (∀ r, CalculatePercentiles values r =
      (values.insertionSort (· ≤ ·)).getD
        (min (values.length - 1) ((r * values.length + 99) / 100 - 1)) 0) ∧
    (CalculatePercentiles values 0 ∈ values ∧
      ∀ x ∈ values, CalculatePercentiles values 0 ≤ x) ∧
    (CalculatePercentiles values 100 ∈ values ∧
      ∀ x ∈ values, x ≤ CalculatePercentiles values 100) ∧
    CalculatePercentiles values p ≤ CalculatePercentiles values q ∧
    (∀ r, CalculatePercentiles [] r = 0) := by
  refine ⟨fun r => rfl, ⟨?_, ?_⟩, ⟨?_, ?_⟩, ?_, fun r => calculatePercentiles_nil r⟩
  · exact calculatePercentiles_mem values 0 hne
  · exact fun x hx => calculatePercentiles_zero_min values x hx
  · exact calculatePercentiles_mem values 100 hne
  · exact fun x hx => calculatePercentiles_hundred_max values x hx
  · exact calculatePercentiles_mono values hpq

theorem C5_witness :
    CalculatePercentiles [3, 1, 2] 0 ∈ ([3, 1, 2] : List Nat) ∧
    CalculatePercentiles [3, 1, 2] 10 ≤ CalculatePercentiles [3, 1, 2] 90 :=
  ⟨(C5_nearest_rank_percentiles [3, 1, 2] (by decide)
      (p := 10) (q := 90) (by decide)).2.1.1,
    (C5_nearest_rank_percentiles [3, 1, 2] (by decide)
      (p := 10) (q := 90) (by decide)).2.2.2.1⟩

/-- C7: with the tiered conditions `[{X≥90,High},{X≥70,Medium}]`
declared most-severe first, the first matching condition in declared
order determines the severity: X=95 yields High, X=75 Medium, and a
sample matching no condition (X=10) yields no severity and a Healthy
overall status. -/
theorem C7_first_matching_condition_wins (v : Nat) :
    matchedSeverity tieredConditions "X" v =
      (if 90 ≤ v then some .High else if 70 ≤ v then some .Medium else none) ∧
    matchedSeverity tieredConditions "X" 95 = some .High ∧
    matchedSeverity tieredConditions "X" 75 = some .Medium ∧
    matchedSeverity tieredConditions "X" 10 = none ∧
    EvaluateStatus tieredConditions
      (fun n => if n = "X" then some 10 else none) = .Healthy := by
  refine ⟨?_, by decide, by decide, by decide, by decide⟩
  by_cases h90 : 90 ≤ v
  · have h70 : 70 ≤ v := by omega
    simp [matchedSeverity, tieredConditions, evalOperator, List.find?, h90, h70]
  · by_cases h70 : 70 ≤ v
    · simp [matchedSeverity, tieredConditions, evalOperator, List.find?, h90, h70]
    · simp [matchedSeverity, tieredConditions, evalOperator, List.find?, h90, h70]

theorem C7_witness :
    matchedSeverity tieredConditions "X" 95 = some SeverityLevel.High :=
  (C7_first_matching_condition_wins 95).2.1

/-- C8 as stated is false: the execution `LatencyMetric` is a collector,
and after a run whose single tick's dial failed its `Measure` has
returned with an empty store; the first `AggregateResults` call then
panics (`none`) instead of yielding any string, let alone the identical
one twice. -/
theorem C8_counterexample :
    (latencyMeasureRun [none]).dataPoints = [] ∧
    execLatencyAggregateResults (latencyMeasureRun [none]).dataPoints = none := by
  constructor
  · rfl
  · rfl

/-- C8 (amended): `AggregateResults` never mutates collector state, so
for every collector whose call returns at all, two successive calls
yield the identical string: the execution `PeerMetric` (even with a
recorded measuring error) and the consensus `PeerMetric` always return
and leave their state untouched, and the execution `LatencyMetric`
returns — the same formatted string on each call — exactly when its
store is non-empty. -/
theorem C8_aggregate_idempotent_amended :
    (∀ s : PeerMetricState,
      (peerAggregateResults (peerAggregateResults s).2).1 =
        (peerAggregateResults s).1 ∧
      (peerAggregateResults s).2 = s) ∧
    (∀ dps : List Nat,
      (consPeerAggregateResults (consPeerAggregateResults dps).2).1 =
        (consPeerAggregateResults dps).1 ∧
      (consPeerAggregateResults dps).2 = dps) ∧
    (∀ t rest, execLatencyAggregateResults (rest ++ [t]) =
      some (FormatPercentiles t.dMin t.dP10 t.dP50 t.dP90 t.dMax)) := by
  refine ⟨?_, ?_, ?_⟩
  · intro s
    cases h : s.measuringError <;> simp [peerAggregateResults, h]
  · intro dps
    exact ⟨rfl, rfl⟩
  · intro t rest
    simp [execLatencyAggregateResults]

/-- C9: when any tick of the execution `PeerMetric` observed an empty
`net_peerCount` result, the recorded measuring error persists to the end
of the run and `AggregateResults` returns the stored error's message
instead of a percentile summary. -/
theorem C9_measuring_error_reported (probes : List PeerProbeOutcome)
    (h : PeerProbeOutcome.emptyResult ∈ probes) :
    (peerAggregateResults (peerMeasureRun probes)).1 = measuringErrMessage := by
  have herr : (peerMeasureRun probes).measuringError = some measuringErrMessage :=
    peerFoldl_error probes peerInit (Or.inl h)
  simp [peerAggregateResults, herr]

theorem C9_witness :
    (peerAggregateResults
      (peerMeasureRun [.ok 5, .emptyResult, .ok 7])).1 = measuringErrMessage :=
  C9_measuring_error_reported [.ok 5, .emptyResult, .ok 7] (by decide)

/-- C10: every DataPoint the latency collector appends holds the
min/p10/p50/p90/max percentiles over all durations collected so far
(the k-th DataPoint over the first k successful probes), so the most
recent DataPoint holds the percentiles over every successful probe of
the run. -/
theorem C10_datapoints_cumulative_percentiles (probes : List (Option Nat))
    (h : probes.filterMap id ≠ []) :
    (latencyMeasureRun probes).durations = probes.filterMap id ∧
    (∀ k (hk : k < (latencyMeasureRun probes).dataPoints.length),
      (latencyMeasureRun probes).dataPoints.get ⟨k, hk⟩ =
        latencyPercentilePoint ((latencyMeasureRun probes).durations.take (k + 1))) ∧
    (latencyMeasureRun probes).dataPoints.getLast? =
      some (latencyPercentilePoint (probes.filterMap id)) := by
  have hinv := latencyFoldl_invariant probes latencyInit (by rfl)
    (by intro k hk; exact absurd hk (Nat.not_lt_zero k))
  rw [latencyMeasureRun]
  have hdur : (probes.foldl latencyMeasureTick latencyInit).durations =
      probes.filterMap id := by
    rw [hinv.2.1]; rfl
  refine ⟨hdur, hinv.2.2, ?_⟩
  have hlen := hinv.1
  have hne : (probes.foldl latencyMeasureTick latencyInit).dataPoints ≠ [] := by
    intro hnil
    apply h
    rw [← hdur]
    have : (probes.foldl latencyMeasureTick latencyInit).durations.length = 0 := by
      rw [← hlen, hnil]; rfl
    exact List.length_eq_zero.mp this
  have hpos : 0 < (probes.foldl latencyMeasureTick latencyInit).dataPoints.length :=
    List.length_pos.mpr hne
  rw [List.getLast?_eq_getLast_of_ne_nil hne]
  congr 1
  have hk : (probes.foldl latencyMeasureTick latencyInit).dataPoints.length - 1 <
      (probes.foldl latencyMeasureTick latencyInit).dataPoints.length := by omega
  have hlast := hinv.2.2 _ hk
  rw [List.get_eq_getElem] at hlast
  rw [List.getLast_eq_getElem, hlast]
  congr 1
  rw [← hdur]
  apply List.take_of_length_le
  omega

theorem C10_witness :
    (latencyMeasureRun [some 3, none, some 5]).dataPoints.getLast? =
      some (latencyPercentilePoint [3, 5]) :=
  (C10_datapoints_cumulative_percentiles [some 3, none, some 5] (by decide)).2.2

end BenchmarkTest
